import Mathlib

/-!
Verification of the OCR-robust machine-translation pipeline.

This file shallowly embeds the Python sources
`ocr_page.py`, `translate_json.py`, `translate_json_urdu.py` and
`LLM evaluation/main.py` and proves or refutes the frozen claims about them.

Conventions of the embedding:
* external model calls are abstracted by an oracle giving, for each attempt
  number, either a raised error (with its message) or a returned text;
* wall-clock times and sleep durations are rationals (the Python floats in
  play -- 5.0, 2.0, 60.0, values like 3.5 + 1.0 -- are all exactly
  representable, so no rounding is lost);
* file writes are modelled by returning the list of on-disk snapshots
  (one per flush);
* Python string operations (strip, regular-expression search and sub) are
  implemented character-by-character over `List Char`, restricted to the
  ASCII behaviour the repository exercises.
-/

namespace OcrMT

/-! ## Python string primitives -/

/-- Whitespace characters recognised by Python's `str.strip()` and the regex
class in the ASCII range: space, tab, newline, carriage return, vertical
tab, form feed. -/
def pyIsSpace (c : Char) : Bool :=
  c = ' ' || c = '\t' || c = '\n' || c = '\r' || c = '\x0b' || c = '\x0c'

/-- Drop trailing characters satisfying `p` (helper for `str.strip()`). -/
def dropTail (p : Char → Bool) (cs : List Char) : List Char :=
  (cs.reverse.dropWhile p).reverse

/-- Python `str.strip()` on a character list: remove leading and trailing
whitespace. -/
def pyStripList (cs : List Char) : List Char :=
  dropTail pyIsSpace (cs.dropWhile pyIsSpace)

/-- Python `str.strip()` on strings. -/
def pyStripStr (s : String) : String :=
  ⟨pyStripList s.toList⟩

/-- Python truthiness test `not text or not text.strip()` used by
`translate_paragraph` (translate_json.py line 42) and `translate_to_urdu`
(translate_json_urdu.py line 38). -/
def isBlank (s : String) : Bool :=
  s == "" || pyStripStr s == ""

/-! ## Rate limiter (ocr_page.py lines 14-24, translate_json.py lines 14-24,
translate_json_urdu.py lines 14-22)

The function `wait_for_rate_limit` runs entirely under a mutual-exclusion
lock, so every concurrent execution is serialised: it is equivalent to some
sequential trace of acquisitions.  One acquisition reads the monotonic clock
(`now`), sleeps `REQUEST_INTERVAL - (now - last)` when less than
`REQUEST_INTERVAL` has elapsed since the recorded last grant, and then
records a fresh clock reading as the new grant time.  `acquireStep last now
now2` relates the previous grant time `last`, the clock reading `now` on
entry, and the recorded grant time `now2`: `time.sleep(d)` suspends for at
least `d`, and the monotonic clock never decreases, so after sleeping the
re-read clock is at least `now + d`; without a sleep the recorded time is
`now` itself (ocr_page.py / translate_json.py) or a re-read clock value
`≥ now` (translate_json_urdu.py re-reads unconditionally) -- the relation
admits both. -/

def REQUEST_INTERVAL : ℚ := 5

/-- One serialised execution of `wait_for_rate_limit`'s locked body. -/
def acquireStep (last now now2 : ℚ) : Prop :=
  if now - last < REQUEST_INTERVAL then
    now + (REQUEST_INTERVAL - (now - last)) ≤ now2
  else
    now ≤ now2

/-- Serialised traces of the rate limiter: `RLTrace last gs` says that
starting from recorded grant time `last`, successive calls to
`wait_for_rate_limit` record the grant times `gs` in order. -/
inductive RLTrace : ℚ → List ℚ → Prop
  | nil (last : ℚ) : RLTrace last []
  | cons (last now g : ℚ) (rest : List ℚ) :
      acquireStep last now g → RLTrace g rest → RLTrace last (g :: rest)

/-! ## Retry sleep policy (ocr_page.py lines 57-82, translate_json.py
lines 71-74, translate_json_urdu.py lines 67-70) -/

/-- ASCII decimal digit. -/
def isDigitCh (c : Char) : Bool := '0' ≤ c && c ≤ '9'

/-- Regex word character `\w` in the ASCII range: letters, digits,
underscore. -/
def isWordCh (c : Char) : Bool :=
  ('a' ≤ c && c ≤ 'z') || ('A' ≤ c && c ≤ 'Z') || isDigitCh c || c = '_'

/-- Numeric value of a digit string (most significant first). -/
def digitsVal (ds : List Char) : Nat :=
  ds.foldl (fun acc d => 10 * acc + (d.toNat - '0'.toNat)) 0

/-- Case-sensitive literal match: returns the remainder after the literal. -/
def dropLit : List Char → List Char → Option (List Char)
  | [], cs => some cs
  | _ :: _, [] => none
  | p :: ps, c :: cs => if p = c then dropLit ps cs else none

/-- Python `float()` of a captured group of shape `digits` or
`digits.digits`, as an exact rational.  The decimal values the claims
exercise (for example 3.5) are exactly representable as binary floats, so
the rational value coincides with the Python float. -/
def pyFloatQ (g : List Char) : ℚ :=
  let s := g.span (fun c => c ≠ '.')
  match s.2 with
  | [] => (digitsVal s.1 : ℚ)
  | _ :: frac => (digitsVal s.1 : ℚ) + (digitsVal frac : ℚ) / (10 : ℚ) ^ frac.length

/-- Attempt to match `Please retry in ([0-9]+(?:\.[0-9]+)?)s` at the start of
`cs`, returning the captured group (`m.group(1)`).  The digit groups are
matched by maximal munch, which coincides with the regex's backtracking
search for this pattern (a shorter digit group is always followed by
another digit, which can match neither `.` nor `s`). -/
def matchRetryInAt (cs : List Char) : Option (List Char) :=
  match dropLit "Please retry in ".toList cs with
  | none => none
  | some r =>
    let s1 := r.span isDigitCh
    if s1.1 = [] then none
    else
      match s1.2 with
      | '.' :: r2 =>
        let s2 := r2.span isDigitCh
        if s2.1 = [] then none
        else
          match s2.2 with
          | 's' :: _ => some (s1.1 ++ '.' :: s2.1)
          | _ => none
      | 's' :: _ => some s1.1
      | _ => none

/-- Leftmost search for the first pattern (`re.search` scans positions left
to right). -/
def searchRetryIn : List Char → Option (List Char)
  | [] => none
  | c :: cs =>
    match matchRetryInAt (c :: cs) with
    | some v => some v
    | none => searchRetryIn cs

/-- Attempt to match `retry_delay\W+seconds:\s*([0-9]+)` at the start of
`cs`, returning the captured digit group.  `\W+` and `\s*` are matched by
maximal munch, which again coincides with the regex semantics because the
following literals start with word characters / digits. -/
def matchRetryDelayAt (cs : List Char) : Option (List Char) :=
  match dropLit "retry_delay".toList cs with
  | none => none
  | some r =>
    let s1 := r.span (fun c => !isWordCh c)
    if s1.1 = [] then none
    else
      match dropLit "seconds:".toList s1.2 with
      | none => none
      | some r2 =>
        let s2 := (r2.dropWhile pyIsSpace).span isDigitCh
        if s2.1 = [] then none else some s2.1

/-- Leftmost search for the second pattern. -/
def searchRetryDelay : List Char → Option (List Char)
  | [] => none
  | c :: cs =>
    match matchRetryDelayAt (c :: cs) with
    | some v => some v
    | none => searchRetryDelay cs

/-- The suggested sleep extracted from an error message by `ocr_with_gemini`
(ocr_page.py lines 63-76): `float()` of the first pattern's group + 1.0,
else `float()` of the second pattern's group + 1.0, else none. -/
def parseSuggestedSleep (err : String) : Option ℚ :=
  match searchRetryIn err.toList with
  | some g => some (pyFloatQ g + 1)
  | none =>
    match searchRetryDelay err.toList with
    | some g => some (pyFloatQ g + 1)
    | none => none

/-- Sleep chosen by `ocr_with_gemini` after attempt `attempt` raises `err`
(ocr_page.py lines 62-81): the server-suggested delay plus one when one of
the two patterns matches, otherwise exponential backoff
`min(60.0, 2.0 * 2 ** (attempt - 1))`. -/
def ocrSleepSeconds (err : String) (attempt : Nat) : ℚ :=
  match parseSuggestedSleep err with
  | some v => v
  | none => min 60 (2 * 2 ^ (attempt - 1))

/-- Sleep chosen by `translate_paragraph` (translate_json.py lines 71-74)
and `translate_to_urdu` (translate_json_urdu.py lines 67-70) after attempt
`attempt` raises: both translation call sites ignore the error text and
always use the capped exponential backoff. -/
def translationSleepSeconds (_err : String) (attempt : Nat) : ℚ :=
  min 60 (2 * 2 ^ (attempt - 1))

/-! ## Retry loops

A model call either raises an exception carrying a message or returns a
response text.  The behaviour of `model.generate_content` on the `attempt`-th
try is supplied by an oracle `Nat → CallOutcome` (attempts are numbered from
1, as in the Python `range(1, max_retries + 1)` loops).  Each loop iteration
performs exactly one `wait_for_rate_limit()` acquisition followed by exactly
one model call, so the returned counter counts both. -/

inductive CallOutcome where
  | raise (msg : String)
  | ok (text : String)
deriving DecidableEq

/-- Whether the outcome is a raised exception. -/
def CallOutcome.isRaise : CallOutcome → Bool
  | .raise _ => true
  | .ok _ => false

/-- Failure condition of a translation-loop attempt: a raised exception, or
a response whose stripped text is empty. -/
def CallOutcome.isTransFail : CallOutcome → Bool
  | .raise _ => true
  | .ok t => pyStripStr t == ""

/-- Retry loop of `ocr_with_gemini` (ocr_page.py lines 50-85): up to 12
attempts; any returned response (even empty) is returned immediately; a
raised error sleeps and retries; exhaustion returns the empty string.
Arguments: current attempt number, remaining attempts.  Result: returned
text and the number of model calls performed. -/
def ocrAttempts (oracle : Nat → CallOutcome) : Nat → Nat → String × Nat
  | _, 0 => ("", 0)
  | a, r + 1 =>
    match oracle a with
    | .ok t => (t, 1)
    | .raise _ =>
      let p := ocrAttempts oracle (a + 1) r
      (p.1, p.2 + 1)

/-- `ocr_with_gemini` with `max_retries = 12`, abstracted over the model
oracle for one image. -/
def ocr_with_gemini (oracle : Nat → CallOutcome) : String × Nat :=
  ocrAttempts oracle 1 12

/-- Shared retry loop of `translate_paragraph` (translate_json.py lines
58-76) and `translate_to_urdu` (translate_json_urdu.py lines 57-73), which
are line-for-line duplicates differing only in the terminal sentinel: up to
12 attempts; a response with non-empty stripped text is returned (stripped);
an empty response or a raised error retries; exhaustion returns the
sentinel. -/
def translationAttempts (sentinel : String) (oracle : Nat → CallOutcome) :
    Nat → Nat → String × Nat
  | _, 0 => (sentinel, 0)
  | a, r + 1 =>
    match oracle a with
    | .ok t =>
      if pyStripStr t ≠ "" then (pyStripStr t, 1)
      else
        let p := translationAttempts sentinel oracle (a + 1) r
        (p.1, p.2 + 1)
    | .raise _ =>
      let p := translationAttempts sentinel oracle (a + 1) r
      (p.1, p.2 + 1)

/-- `translate_paragraph` (translate_json.py lines 34-76): blank input
returns the empty string before any rate-limiter acquisition or model call;
otherwise the retry loop runs with sentinel `[Translation failed]`. -/
def translate_paragraph (oracle : Nat → CallOutcome) (german_text : String) :
    String × Nat :=
  if isBlank german_text then ("", 0)
  else translationAttempts "[Translation failed]" oracle 1 12

/-- `translate_to_urdu` (translate_json_urdu.py lines 36-73): blank input
returns the empty string before any rate-limiter acquisition or model call;
otherwise the retry loop runs with sentinel `[Urdu translation failed]`. -/
def translate_to_urdu (oracle : Nat → CallOutcome) (english_text : String) :
    String × Nat :=
  if isBlank english_text then ("", 0)
  else translationAttempts "[Urdu translation failed]" oracle 1 12

/-! ## Page-level pipelines and per-page persistence

Each stage's model behaviour is abstracted by an oracle keyed by the text
(or image) fed to the prompt, giving the outcome of each attempt.  File
writes (`save_json_results` / `json.dump` after each page) are modelled by
returning the list of on-disk snapshots, one per flush. -/

structure OcrPage where
  page_number : Nat
  content : String
deriving DecidableEq

structure OcrDoc where
  total_pages : Nat
  pages : List OcrPage
deriving DecidableEq

structure EnPage where
  page_number : Nat
  german : String
  english : String
deriving DecidableEq

structure EnDoc where
  total_pages : Nat
  pages : List EnPage
deriving DecidableEq

structure UrPage where
  page_number : Nat
  german : String
  english : String
  urdu : String
deriving DecidableEq

structure UrDoc where
  total_pages : Nat
  pages : List UrPage
deriving DecidableEq

/-- Loop of `process_pdf_pages` (ocr_page.py lines 104-121): pages are
numbered from 1 by `enumerate(images, 1)`; each page's OCR text is stripped
and appended, and the whole document is rewritten to disk after every page.
`images` is the remaining image list, `acc` the pages accumulated so far;
the result is the list of flushed snapshots. -/
def processPagesAux {α : Type} (oracle : α → Nat → CallOutcome) (total : Nat) :
    Nat → List α → List OcrPage → List OcrDoc
  | _, [], _ => []
  | pageNum, img :: rest, acc =>
    let content := pyStripStr (ocr_with_gemini (oracle img)).1
    let acc2 := acc ++ [⟨pageNum, content⟩]
    OcrDoc.mk total acc2 :: processPagesAux oracle total (pageNum + 1) rest acc2

/-- `process_pdf_pages` (ocr_page.py lines 87-123), returning the sequence
of on-disk snapshots (one per per-page flush; the last one is the final
result). -/
def process_pdf_pages {α : Type} (oracle : α → Nat → CallOutcome)
    (images : List α) : List OcrDoc :=
  processPagesAux oracle images.length 1 images []

/-- Loop of the English-translation `translate_json_file`
(translate_json.py lines 78-125): every page of the input document is
translated in order; the output page carries the input's page number, the
German source text and the translation result.  The second component
records, per page, the number of model calls (equally, rate-limiter
acquisitions) made for that page.  Note that the function reads only the
input document: the existing contents of the output file are never
consulted, only overwritten. -/
def translatePagesAux (oracle : String → Nat → CallOutcome) :
    List OcrPage → List EnPage × List Nat
  | [] => ([], [])
  | pg :: ps =>
    let r := translate_paragraph (oracle pg.content) pg.content
    let rest := translatePagesAux oracle ps
    (⟨pg.page_number, pg.content, r.1⟩ :: rest.1, r.2 :: rest.2)

/-- The English-translation `translate_json_file`, as final document plus
per-page model-call counts. -/
def translate_json_file_en (oracle : String → Nat → CallOutcome)
    (doc : OcrDoc) : EnDoc × List Nat :=
  (⟨doc.total_pages, (translatePagesAux oracle doc.pages).1⟩,
   (translatePagesAux oracle doc.pages).2)

/-- Loop of the Urdu `translate_json_file` (translate_json_urdu.py lines
76-113): pages of the input are processed in order, each output page
carrying over `page_number`, `german`, `english` and adding the Urdu
translation; the whole document is rewritten after each page.  The result
is the list of flushed snapshots. -/
def urduPagesAux (oracle : String → Nat → CallOutcome) (total : Nat) :
    List EnPage → List UrPage → List UrDoc
  | [], _ => []
  | p :: ps, acc =>
    let urdu_text := (translate_to_urdu (oracle p.english) p.english).1
    let acc2 := acc ++ [⟨p.page_number, p.german, p.english, urdu_text⟩]
    UrDoc.mk total acc2 :: urduPagesAux oracle total ps acc2

/-- The Urdu `translate_json_file`, returning the sequence of on-disk
snapshots (one per per-page flush). -/
def translate_json_file_urdu (oracle : String → Nat → CallOutcome)
    (doc : EnDoc) : List UrDoc :=
  urduPagesAux oracle doc.total_pages doc.pages []

/-- Pairs each list element with its index, starting at `n`. -/
def withIdx {α : Type} : Nat → List α → List (Nat × α)
  | _, [] => []
  | n, x :: xs => (n, x) :: withIdx (n + 1) xs

/-- The OCR page record produced for the numbered image `z` (page number,
stripped OCR text), as built in the loop of `process_pdf_pages`. -/
def ocrPageOf {α : Type} (oracle : α → Nat → CallOutcome) (z : Nat × α) :
    OcrPage :=
  ⟨z.1, pyStripStr (ocr_with_gemini (oracle z.2)).1⟩

/-- The translated page record produced for input page `pg` by the
English-translation stage. -/
def enPageOf (oracle : String → Nat → CallOutcome) (pg : OcrPage) : EnPage :=
  ⟨pg.page_number, pg.content, (translate_paragraph (oracle pg.content) pg.content).1⟩

/-- The translated page record produced for input page `p` by the Urdu
stage. -/
def urPageOf (oracle : String → Nat → CallOutcome) (p : EnPage) : UrPage :=
  ⟨p.page_number, p.german, p.english,
   (translate_to_urdu (oracle p.english) p.english).1⟩

/-! ## Local-model pipeline (`LLM evaluation/main.py`)

JSON values as parsed by `json.load`: strings, integers (the claims only
exercise integral numbers), arrays, objects (association lists in insertion
order, keys unique), booleans and null. -/

inductive JVal where
  | jstr (s : String)
  | jint (n : Int)
  | jarr (xs : List JVal)
  | jobj (kvs : List (String × JVal))
  | jbool (b : Bool)
  | jnull

mutual
/-- Python `repr()` restricted to these values.  String quoting is the
plain single-quote form; escape sequences inside strings are not modelled
(no claim exercises them). -/
def pyRepr : JVal → String
  | .jstr s => "'" ++ s ++ "'"
  | .jint n => toString n
  | .jbool b => if b then "True" else "False"
  | .jnull => "None"
  | .jarr xs => "[" ++ String.intercalate ", " (pyReprList xs) ++ "]"
  | .jobj kvs => "\x7b" ++ String.intercalate ", " (pyReprKVs kvs) ++ "\x7d"
def pyReprList : List JVal → List String
  | [] => []
  | v :: vs => pyRepr v :: pyReprList vs
def pyReprKVs : List (String × JVal) → List String
  | [] => []
  | (k, v) :: kvs => ("'" ++ k ++ "': " ++ pyRepr v) :: pyReprKVs kvs
end

/-- Python `str()` on these values: the identity on strings, `repr` on
everything else. -/
def pyStr : JVal → String
  | .jstr s => s
  | v => pyRepr v

/-- Key lookup in a JSON object (`data[k]` for present keys). -/
def lookupJ (kvs : List (String × JVal)) (k : String) : Option JVal :=
  (kvs.find? (fun kv => kv.1 = k)).map (fun kv => kv.2)

/-- Substring test on character lists (Python `needle in haystack` for
strings). -/
def subListIn (needle : List Char) : List Char → Bool
  | [] => needle.isEmpty
  | c :: t => needle.isPrefixOf (c :: t) || subListIn needle t

/-- Python `k in v`: key test on dicts, membership on lists (a string key
equals only an equal string element), substring test on strings;
`TypeError` (modelled as `none`) on other values. -/
def jIn (k : String) : JVal → Option Bool
  | .jobj kvs => some (kvs.any (fun kv => kv.1 = k))
  | .jarr xs =>
    some (xs.any (fun x => match x with | .jstr s => s = k | _ => false))
  | .jstr s => some (subListIn k.toList s.toList)
  | _ => none

/-- Python `v[k]` with a string key: object lookup; raises (`none`) for
missing keys and all other values. -/
def jIndex : JVal → String → Option JVal
  | .jobj kvs, k => lookupJ kvs k
  | _, _ => none

/-- Python `for item in v`: list elements, dict keys, characters of a
string; `TypeError` (`none`) otherwise. -/
def jIter : JVal → Option (List JVal)
  | .jarr xs => some xs
  | .jobj kvs => some (kvs.map (fun kv => JVal.jstr kv.1))
  | .jstr s => some (s.toList.map (fun c => JVal.jstr (String.mk [c])))
  | _ => none

/-- Case A body (`LLM evaluation/main.py` lines 42-45): collect
`str(item['content'])` for each item having a `content` key. -/
def collectPagesA : List JVal → Option (List String)
  | [] => some []
  | it :: rest =>
    match jIn "content" it with
    | none => none
    | some false => collectPagesA rest
    | some true =>
      match jIndex it "content" with
      | none => none
      | some v => (collectPagesA rest).map (fun l => pyStr v :: l)

/-- Case B body (lines 48-52): items that are dicts with a `content` key
contribute `str(item['content'])`, string items contribute themselves,
everything else is skipped. -/
def collectContentList : List JVal → List String
  | [] => []
  | JVal.jobj kvs :: rest =>
    match lookupJ kvs "content" with
    | some v => pyStr v :: collectContentList rest
    | none => collectContentList rest
  | JVal.jstr s :: rest => s :: collectContentList rest
  | _ :: rest => collectContentList rest

/-- Strict lexicographic comparison of character lists by code point,
matching Python string comparison. -/
def strLtB : List Char → List Char → Bool
  | [], [] => false
  | [], _ :: _ => true
  | _ :: _, [] => false
  | a :: as, b :: bs => if a < b then true else if b < a then false else strLtB as bs

/-- Python `x <= y` on strings (total order, so `x <= y` iff not `y < x`). -/
def pyStrLe (x y : String) : Bool := !(strLtB y.toList x.toList)

/-- Insert a string into a sorted list (code-point lexicographic order, as
Python `sorted` on `str`). -/
def insertSorted (x : String) : List String → List String
  | [] => [x]
  | y :: ys => if pyStrLe x y then x :: y :: ys else y :: insertSorted x ys

/-- Insertion sort on strings, modelling `sorted(data.keys())`. -/
def sortStrings : List String → List String
  | [] => []
  | x :: xs => insertSorted x (sortStrings xs)

/-- Reserved keys excluded in case C (line 57). -/
def reservedKeys : List String := ["total_pages", "content", "document", "metadata"]

/-- Case C (lines 55-58): keys in sorted order, reserved keys excluded,
values stringified. -/
def collectKeyedPages (kvs : List (String × JVal)) : List String :=
  ((sortStrings (kvs.map (fun kv => kv.1))).filter
      (fun k => !(reservedKeys.contains k))).filterMap
    (fun k => (lookupJ kvs k).map pyStr)

/-- Cases B and C for a dict that did not take case A. -/
def extractFromDict (kvs : List (String × JVal)) : List String :=
  match lookupJ kvs "content" with
  | some (.jarr xs) => collectContentList xs
  | _ => collectKeyedPages kvs

/-- Shape dispatch of `extract_text_from_json` (lines 34-66); `none` models
a raised exception, caught by the caller. -/
def extractCore : JVal → Option (List String)
  | .jobj kvs =>
    match lookupJ kvs "document" with
    | some d =>
      match jIn "pages" d with
      | none => none
      | some true =>
        match jIndex d "pages" with
        | none => none
        | some pv =>
          match jIter pv with
          | none => none
          | some items => collectPagesA items
      | some false => some (extractFromDict kvs)
    | none => some (extractFromDict kvs)
  | .jarr xs => some (xs.map pyStr)
  | v => some [pyStr v]

/-- `extract_text_from_json` (lines 34-71) on an already parsed value: the
`try`/`except` turns any raised exception into an empty result. -/
def extract_text_from_json (data : JVal) : List String :=
  (extractCore data).getD []

/-! ## Response sanitiser (`LLM evaluation/main.py` lines 74-87)

The ten patterns of `clean_response` are built from case-insensitive
literals, the lazy wildcard `.*?` and the greedy wildcard `.*` (both
excluding newline), optionally anchored at a line start (`^` under
`re.MULTILINE`).  A small backtracking matcher implements exactly this
fragment. -/

inductive RTok where
  | litc (c : Char)
  | lazyAny
  | greedyAny

/-- Case-insensitive character comparison (`re.IGNORECASE`, ASCII). -/
def ciEq (a b : Char) : Bool := a.toLower = b.toLower

/-- Backtracking matcher at a fixed position: returns the remainder of the
input after the preferred match (lazy wildcards try the shortest expansion
first, greedy ones the longest), or `none` when no expansion matches.  The
fuel argument strictly decreases on every call and is initialised above the
maximum possible call depth, so it never runs out. -/
def matchToksF : Nat → List RTok → List Char → Option (List Char)
  | 0, _, _ => none
  | _ + 1, [], cs => some cs
  | _ + 1, .litc _ :: _, [] => none
  | f + 1, .litc ch :: ts, c :: cs =>
    if ciEq ch c then matchToksF f ts cs else none
  | f + 1, .lazyAny :: ts, cs =>
    match matchToksF f ts cs with
    | some r => some r
    | none =>
      match cs with
      | [] => none
      | c :: cs2 => if c = '\n' then none else matchToksF f (.lazyAny :: ts) cs2
  | f + 1, .greedyAny :: ts, [] => matchToksF f ts []
  | f + 1, .greedyAny :: ts, c :: cs2 =>
    if c = '\n' then matchToksF f ts (c :: cs2)
    else
      match matchToksF f (.greedyAny :: ts) cs2 with
      | some r => some r
      | none => matchToksF f ts (c :: cs2)

/-- Matcher with adequate fuel: every recursive call of `matchToksF`
decreases `toks.length + cs.length`, so this fuel never runs out. -/
def matchToks (toks : List RTok) (cs : List Char) : Option (List Char) :=
  matchToksF (toks.length + cs.length + 1) toks cs

/-- One pattern of the sanitiser: token list plus line-start anchoring. -/
structure RPat where
  anchored : Bool
  toks : List RTok

/-- Literal token run for a pattern fragment. -/
def litToks (s : String) : List RTok := s.toList.map RTok.litc

/-- The seven leading-phrase patterns, in source order (lines 76-80). -/
def leadPatterns : List RPat :=
  [⟨true, litToks "Here is the" ++ [.lazyAny] ++ litToks "translation" ++ [.lazyAny] ++ litToks ":"⟩,
   ⟨true, litToks "Sure, here is" ++ [.lazyAny] ++ litToks ":"⟩,
   ⟨true, litToks "Translation:"⟩,
   ⟨true, litToks "Below is the translation" ++ [.lazyAny] ++ litToks ":"⟩,
   ⟨true, litToks "The translation is as follows" ++ [.lazyAny] ++ litToks ":"⟩,
   ⟨true, litToks "Here is the Urdu translation" ++ [.lazyAny] ++ litToks ":"⟩,
   ⟨true, litToks "Here is the English translation" ++ [.lazyAny] ++ litToks ":"⟩]

/-- The three trailing-phrase patterns (line 81). -/
def tailPatterns : List RPat :=
  [⟨false, litToks "Note:" ++ [.greedyAny]⟩,
   ⟨false, litToks "Please let me know" ++ [.greedyAny]⟩,
   ⟨false, litToks "I hope this helps" ++ [.greedyAny]⟩]

/-- All ten patterns. -/
def allPatterns : List RPat := leadPatterns ++ tailPatterns

/-- `re.sub(pat, "", text)` scan: positions are tried left to right; at a
successful match the matched characters are removed and scanning resumes
after them (`atLS` tracks whether the current position follows a newline or
the start, for the `^` anchor under `re.MULTILINE`).  All ten patterns
require at least one character, so fuel `length + 1` suffices; the
impossible empty-match case conservatively advances one character. -/
def subScanF (anchored : Bool) (toks : List RTok) :
    Nat → List Char → Bool → List Char
  | _, [], _ => []
  | 0, cs, _ => cs
  | f + 1, c :: cs, atLS =>
    if anchored && !atLS then c :: subScanF anchored toks f cs (c = '\n')
    else
      match matchToks toks (c :: cs) with
      | none => c :: subScanF anchored toks f cs (c = '\n')
      | some rest =>
        let k := (c :: cs).length - rest.length
        if k = 0 then c :: subScanF anchored toks f cs (c = '\n')
        else subScanF anchored toks f rest ((c :: cs).getD (k - 1) ' ' = '\n')

/-- Substitution of a pattern by the empty string over a whole text. -/
def subPattern (p : RPat) (cs : List Char) : List Char :=
  subScanF p.anchored p.toks (cs.length + 1) cs true

/-- Whether a pattern matches anywhere in the text (with anchoring
respected). -/
def hasMatch (p : RPat) : List Char → Bool :=
  go true
where
  go (atLS : Bool) : List Char → Bool
    | [] => (!(p.anchored && !atLS)) && (matchToks p.toks []).isSome
    | c :: cs =>
      ((!(p.anchored && !atLS)) && (matchToks p.toks (c :: cs)).isSome)
        || go (c = '\n') cs

/-- A text containing none of the ten patterns. -/
def patternFree (cs : List Char) : Bool :=
  allPatterns.all (fun p => !(hasMatch p cs))

/-- Loop body of `clean_response`: `text = re.sub(p, "", text, ...).strip()`. -/
def subStripStep (cs : List Char) (p : RPat) : List Char :=
  pyStripList (subPattern p cs)

/-- `clean_response` (lines 74-87) on a character list: empty input is
returned unchanged (`if not text: return ""`); otherwise each leading
pattern, then each trailing pattern, is substituted away and the result
stripped after every substitution. -/
def cleanList (cs : List Char) : List Char :=
  if cs = [] then []
  else tailPatterns.foldl subStripStep (leadPatterns.foldl subStripStep cs)

/-- `clean_response` on strings. -/
def clean_response (s : String) : String :=
  ⟨cleanList s.toList⟩

/-! ## Batch runner of the local-model pipeline (`main`, lines 110-190) -/

/-- One input file of the local-model batch: whether its output file
already exists, and the per-segment results of `translate_segment`
(`none` models the exception path that returns `None`, line 132;
`some t` the cleaned response `t`). -/
structure EvalFile where
  existsAlready : Bool
  segResults : List (Option String)

/-- Per-file segment loop (lines 180-190): a truthy (non-empty) translation
is appended to the output file; a falsy one writes nothing; `None`
additionally terminates the whole process (`sys.exit()`).  Returns the
texts written for this file and whether the process exited. -/
def runSegments : List (Option String) → List String × Bool
  | [] => ([], false)
  | none :: _ => ([], true)
  | some t :: rest =>
    if t = "" then runSegments rest
    else
      let p := runSegments rest
      (t :: p.1, p.2)

/-- File loop (lines 166-190): a file whose output already exists is
skipped (`[SKIP]`), a file with no extracted segments is skipped, and a
`sys.exit()` inside a file abandons all remaining files.  Returns the
written texts of each processed file, and whether the process exited. -/
def runBatch : List EvalFile → List (List String) × Bool
  | [] => ([], false)
  | f :: fs =>
    if f.existsAlready then runBatch fs
    else if f.segResults.isEmpty then runBatch fs
    else
      let p := runSegments f.segResults
      if p.2 then ([p.1], true)
      else
        let q := runBatch fs
        (p.1 :: q.1, q.2)

/-! ## Helper lemmas -/

theorem dropWhile_dropWhile (p : Char → Bool) (l : List Char) :
    (l.dropWhile p).dropWhile p = l.dropWhile p := by
  induction l with
  | nil => rfl
  | cons a l ih =>
    by_cases h : p a
    · simpa [List.dropWhile_cons, h] using ih
    · simp [List.dropWhile_cons, h]

theorem dropWhile_self_head (p : Char → Bool) (c : Char) (l : List Char)
    (h : (c :: l).dropWhile p = c :: l) : p c = false := by
  by_cases hc : p c
  · exfalso
    rw [List.dropWhile_cons_of_pos hc] at h
    have hlen := congrArg List.length h
    have hle : (l.dropWhile p).length ≤ l.length :=
      (List.dropWhile_sublist p).length_le
    simp only [List.length_cons] at hlen
    omega
  · simpa using hc

theorem dropWhile_append_char (p : Char → Bool) (xs ys : List Char) :
    (xs ++ ys).dropWhile p =
      if (xs.dropWhile p).isEmpty then ys.dropWhile p else xs.dropWhile p ++ ys := by
  induction xs with
  | nil => simp
  | cons a xs ih =>
    by_cases h : p a
    · simpa [List.dropWhile_cons, h] using ih
    · simp [List.dropWhile_cons, h]

theorem dropTail_dropTail (p : Char → Bool) (l : List Char) :
    dropTail p (dropTail p l) = dropTail p l := by
  simp [dropTail, dropWhile_dropWhile]

/-- Right-stripping preserves the absence of a strippable first character. -/
theorem dropWhile_dropTail (p : Char → Bool) (l : List Char)
    (h : l.dropWhile p = l) : (dropTail p l).dropWhile p = dropTail p l := by
  cases l with
  | nil => rfl
  | cons c l =>
    have hc : p c = false := dropWhile_self_head p c l h
    unfold dropTail
    rw [List.reverse_cons, dropWhile_append_char]
    by_cases he : (l.reverse.dropWhile p).isEmpty
    · simp [he, List.dropWhile_cons, hc]
    · rw [if_neg (by simpa using he)]
      rw [List.reverse_append]
      simp only [List.reverse_cons, List.reverse_nil, List.nil_append,
        List.singleton_append]
      rw [List.dropWhile_cons_of_neg (by simp [hc])]

theorem pyStripList_idem (l : List Char) :
    pyStripList (pyStripList l) = pyStripList l := by
  unfold pyStripList
  rw [dropWhile_dropTail pyIsSpace (l.dropWhile pyIsSpace)
       (dropWhile_dropWhile pyIsSpace l),
     dropTail_dropTail]

theorem pyStripStr_idem (s : String) :
    pyStripStr (pyStripStr s) = pyStripStr s := by
  unfold pyStripStr
  simp [pyStripList_idem]

theorem acquireStep_gap (last now now2 : ℚ) (h : acquireStep last now now2) :
    last + REQUEST_INTERVAL ≤ now2 := by
  unfold acquireStep at h
  by_cases hc : now - last < REQUEST_INTERVAL
  · rw [if_pos hc] at h
    linarith
  · rw [if_neg hc] at h
    push_neg at hc
    linarith

/-! ## Claim C4 -/

/-- C4: for every serialised sequence of `wait_for_rate_limit` acquisitions
(the lock serialises concurrent callers into such a sequence), the recorded
grant times of any two consecutive grants are at least
`REQUEST_INTERVAL = 5.0` apart. -/
theorem c4_rate_limiter_gap (last : ℚ) (gs : List ℚ) (h : RLTrace last gs) :
    List.Chain' (fun a b => a + REQUEST_INTERVAL ≤ b) gs := by
  induction h with
  | nil _ => exact List.chain'_nil
  | cons last now g rest hstep htr ih =>
    rw [List.chain'_cons']
    refine ⟨?_, ih⟩
    intro b hb
    cases htr with
    | nil _ => simp at hb
    | cons _ now2 g2 rest2 hstep2 _ =>
      simp only [List.head?_cons, Option.mem_def, Option.some.injEq] at hb
      subst hb
      exact acquireStep_gap g now2 g2 hstep2

/-- Witness for C4: a concrete two-grant trace (clock reads 6 then 9, the
second acquisition sleeping 2). -/
theorem c4_rate_limiter_gap_witness :
    List.Chain' (fun a b => a + REQUEST_INTERVAL ≤ b) [(6 : ℚ), 11] := by
  apply c4_rate_limiter_gap 0
  refine RLTrace.cons 0 6 6 [11] ?_ (RLTrace.cons 6 9 11 [] ?_ (RLTrace.nil 11))
  · unfold acquireStep REQUEST_INTERVAL
    norm_num
  · unfold acquireStep REQUEST_INTERVAL
    norm_num

/-! ## Claim C2 -/

/-- C2 counterexample: the claim asserts the suggested-delay parsing applies
at every one of the three call sites, but the translation call sites ignore
the error text; on an error containing `Please retry in 3.5s` at attempt 1
they sleep the backoff 2.0, not the claimed 4.5. -/
theorem c2_counterexample :
    translationSleepSeconds "Please retry in 3.5s" 1 = 2 ∧ (2 : ℚ) ≠ 9 / 2 := by
  constructor
  · unfold translationSleepSeconds
    norm_num
  · norm_num

/-- C2 amended: the two-pattern suggested-delay extraction (value + 1.0,
else capped exponential backoff) governs only the OCR call site
(`ocr_with_gemini`); both translation call sites always sleep
`min(60.0, 2.0 * 2^(attempt-1))` regardless of the error text. -/
theorem c2_amended :
    (∀ attempt : Nat,
      ocrSleepSeconds "Error 429. Please retry in 3.5s." attempt = 9 / 2)
    ∧ (∀ attempt : Nat,
      ocrSleepSeconds "quota: retry_delay \x7b seconds: 10 \x7d" attempt = 11)
    ∧ (∀ (err : String) (attempt : Nat), parseSuggestedSleep err = none →
      ocrSleepSeconds err attempt = min 60 (2 * 2 ^ (attempt - 1)))
    ∧ (∀ (err : String) (attempt : Nat),
      translationSleepSeconds err attempt = min 60 (2 * 2 ^ (attempt - 1))) := by
  refine ⟨?_, ?_, ?_, ?_⟩
  · intro attempt
    have hs : searchRetryIn "Error 429. Please retry in 3.5s.".toList
        = some ['3', '.', '5'] := by decide
    have hspan : (List.span (fun c => c ≠ '.') ['3', '.', '5'])
        = (['3'], ['.', '5']) := by decide
    have h3 : ('3'.toNat - '0'.toNat) = 3 := by decide
    have h5 : ('5'.toNat - '0'.toNat) = 5 := by decide
    simp only [ocrSleepSeconds, parseSuggestedSleep, hs]
    simp only [pyFloatQ, hspan]
    norm_num [digitsVal, List.foldl, h3, h5]
  · intro attempt
    have hs : searchRetryIn "quota: retry_delay \x7b seconds: 10 \x7d".toList
        = none := by decide
    have hs2 : searchRetryDelay "quota: retry_delay \x7b seconds: 10 \x7d".toList
        = some ['1', '0'] := by decide
    have hspan : (List.span (fun c => c ≠ '.') ['1', '0'])
        = (['1', '0'], []) := by decide
    have h1 : ('1'.toNat - '0'.toNat) = 1 := by decide
    have h0 : ('0'.toNat - '0'.toNat) = 0 := by decide
    simp only [ocrSleepSeconds, parseSuggestedSleep, hs, hs2]
    simp only [pyFloatQ, hspan]
    norm_num [digitsVal, List.foldl, h1, h0]
  · intro err attempt h
    simp only [ocrSleepSeconds, h]
  · intro err attempt
    rfl

/-- Witness for C2's amended theorem at concrete inputs. -/
theorem c2_amended_witness :
    ocrSleepSeconds "Error 429. Please retry in 3.5s." 3 = 9 / 2
    ∧ ocrSleepSeconds "quota: retry_delay \x7b seconds: 10 \x7d" 1 = 11
    ∧ ocrSleepSeconds "no hint here" 3 = 8
    ∧ translationSleepSeconds "Please retry in 3.5s" 4 = 16 := by
  have h := c2_amended
  refine ⟨h.1 3, h.2.1 1, ?_, ?_⟩
  · have hnone : parseSuggestedSleep "no hint here" = none := by decide
    rw [h.2.2.1 "no hint here" 3 hnone]
    norm_num
  · rw [h.2.2.2 "Please retry in 3.5s" 4]
    norm_num

/-! ## Claim C10 -/

/-- C10: on input that is empty or whitespace only, `translate_paragraph`
and `translate_to_urdu` return the empty string immediately, performing
zero model calls and zero rate-limiter acquisitions (the counter counts
each loop iteration, which performs exactly one of each). -/
theorem c10_blank_input (oracle : Nat → CallOutcome) (s : String)
    (h : isBlank s = true) :
    translate_paragraph oracle s = ("", 0)
    ∧ translate_to_urdu oracle s = ("", 0) := by
  constructor
  · simp [translate_paragraph, h]
  · simp [translate_to_urdu, h]

/-- Witness for C10 at the two-space string. -/
theorem c10_blank_input_witness :
    translate_paragraph (fun _ => CallOutcome.ok "x") "  " = ("", 0)
    ∧ translate_to_urdu (fun _ => CallOutcome.ok "x") "  " = ("", 0) :=
  c10_blank_input (fun _ => CallOutcome.ok "x") "  " (by decide)

/-! ## Retry-loop lemmas -/

theorem ocrAttempts_all_fail (oracle : Nat → CallOutcome) :
    ∀ (r a : Nat), (∀ i, a ≤ i → i < a + r → (oracle i).isRaise = true) →
    ocrAttempts oracle a r = ("", r) := by
  intro r
  induction r with
  | zero => intro a _; rfl
  | succ r ih =>
    intro a h
    have ha : (oracle a).isRaise = true := h a (Nat.le_refl a) (by omega)
    cases ho : oracle a with
    | ok t => rw [ho] at ha; simp [CallOutcome.isRaise] at ha
    | raise m =>
      have hrec := ih (a + 1) (fun i h1 h2 => h i (by omega) (by omega))
      simp only [ocrAttempts, ho, hrec]

theorem ocrAttempts_fail_then_ok (oracle : Nat → CallOutcome) :
    ∀ (K a r : Nat) (t : String), K < r →
    (∀ i, a ≤ i → i < a + K → (oracle i).isRaise = true) →
    oracle (a + K) = .ok t →
    ocrAttempts oracle a r = (t, K + 1) := by
  intro K
  induction K with
  | zero =>
    intro a r t hr _ hok
    cases r with
    | zero => omega
    | succ r2 =>
      rw [Nat.add_zero] at hok
      simp only [ocrAttempts, hok]
  | succ K ih =>
    intro a r t hr hfail hok
    cases r with
    | zero => omega
    | succ r2 =>
      have ha : (oracle a).isRaise = true := hfail a (Nat.le_refl a) (by omega)
      cases ho : oracle a with
      | ok u => rw [ho] at ha; simp [CallOutcome.isRaise] at ha
      | raise m =>
        have hrec := ih (a + 1) r2 t (by omega)
          (fun i h1 h2 => hfail i (by omega) (by omega))
          (by rw [show a + 1 + K = a + (K + 1) by omega]; exact hok)
        simp only [ocrAttempts, ho, hrec]

theorem translationAttempts_all_fail (sentinel : String)
    (oracle : Nat → CallOutcome) :
    ∀ (r a : Nat), (∀ i, a ≤ i → i < a + r → (oracle i).isTransFail = true) →
    translationAttempts sentinel oracle a r = (sentinel, r) := by
  intro r
  induction r with
  | zero => intro a _; rfl
  | succ r ih =>
    intro a h
    have ha : (oracle a).isTransFail = true := h a (Nat.le_refl a) (by omega)
    have hrec := ih (a + 1) (fun i h1 h2 => h i (by omega) (by omega))
    cases ho : oracle a with
    | ok t =>
      rw [ho] at ha
      simp only [CallOutcome.isTransFail, beq_iff_eq] at ha
      simp only [translationAttempts, ho, ha, ne_eq, not_true_eq_false, if_false,
        hrec]
    | raise m =>
      simp only [translationAttempts, ho, hrec]

theorem translationAttempts_fail_then_ok (sentinel : String)
    (oracle : Nat → CallOutcome) :
    ∀ (K a r : Nat) (t : String), K < r →
    (∀ i, a ≤ i → i < a + K → (oracle i).isTransFail = true) →
    oracle (a + K) = .ok t → pyStripStr t ≠ "" →
    translationAttempts sentinel oracle a r = (pyStripStr t, K + 1) := by
  intro K
  induction K with
  | zero =>
    intro a r t hr _ hok hne
    cases r with
    | zero => omega
    | succ r2 =>
      rw [Nat.add_zero] at hok
      simp only [translationAttempts, hok]
      rw [if_pos hne]
  | succ K ih =>
    intro a r t hr hfail hok hne
    cases r with
    | zero => omega
    | succ r2 =>
      have ha : (oracle a).isTransFail = true := hfail a (Nat.le_refl a) (by omega)
      have hrec := ih (a + 1) r2 t (by omega)
        (fun i h1 h2 => hfail i (by omega) (by omega))
        (by rw [show a + 1 + K = a + (K + 1) by omega]; exact hok) hne
      cases ho : oracle a with
      | ok u =>
        rw [ho] at ha
        simp only [CallOutcome.isTransFail, beq_iff_eq] at ha
        simp only [translationAttempts, ho, ha, ne_eq, not_true_eq_false, if_false,
          hrec]
      | raise m =>
        simp only [translationAttempts, ho, hrec]

/-! ## Claim C3 -/

/-- C3: with 12 maximum attempts, each invoker returns the first success
(the raw response for OCR, the stripped non-blank response for the
translation stages) after exactly K+1 calls when the first K attempts fail
(raise for OCR; raise or blank response for translation), and after 12
failing calls returns its terminal value: the empty string for
`ocr_with_gemini`, `[Translation failed]` for `translate_paragraph`,
`[Urdu translation failed]` for `translate_to_urdu`. -/
theorem c3_retry_counts :
    (∀ (oracle : Nat → CallOutcome) (K : Nat) (t : String), K < 12 →
      (∀ i, 1 ≤ i → i ≤ K → (oracle i).isRaise = true) →
      oracle (K + 1) = .ok t →
      ocr_with_gemini oracle = (t, K + 1))
    ∧ (∀ oracle : Nat → CallOutcome,
      (∀ i, 1 ≤ i → i ≤ 12 → (oracle i).isRaise = true) →
      ocr_with_gemini oracle = ("", 12))
    ∧ (∀ (oracle : Nat → CallOutcome) (text t : String) (K : Nat),
      isBlank text = false → K < 12 →
      (∀ i, 1 ≤ i → i ≤ K → (oracle i).isTransFail = true) →
      oracle (K + 1) = .ok t → pyStripStr t ≠ "" →
      translate_paragraph oracle text = (pyStripStr t, K + 1))
    ∧ (∀ (oracle : Nat → CallOutcome) (text : String),
      isBlank text = false →
      (∀ i, 1 ≤ i → i ≤ 12 → (oracle i).isTransFail = true) →
      translate_paragraph oracle text = ("[Translation failed]", 12))
    ∧ (∀ (oracle : Nat → CallOutcome) (text t : String) (K : Nat),
      isBlank text = false → K < 12 →
      (∀ i, 1 ≤ i → i ≤ K → (oracle i).isTransFail = true) →
      oracle (K + 1) = .ok t → pyStripStr t ≠ "" →
      translate_to_urdu oracle text = (pyStripStr t, K + 1))
    ∧ (∀ (oracle : Nat → CallOutcome) (text : String),
      isBlank text = false →
      (∀ i, 1 ≤ i → i ≤ 12 → (oracle i).isTransFail = true) →
      translate_to_urdu oracle text = ("[Urdu translation failed]", 12)) := by
  refine ⟨?_, ?_, ?_, ?_, ?_, ?_⟩
  · intro oracle K t hK hfail hok
    unfold ocr_with_gemini
    exact ocrAttempts_fail_then_ok oracle K 1 12 t hK
      (fun i h1 h2 => hfail i h1 (by omega)) (by rw [Nat.add_comm]; exact hok)
  · intro oracle hfail
    unfold ocr_with_gemini
    exact ocrAttempts_all_fail oracle 12 1 (fun i h1 h2 => hfail i h1 (by omega))
  · intro oracle text t K hb hK hfail hok hne
    unfold translate_paragraph
    rw [hb]
    simp only [Bool.false_eq_true, if_false]
    exact translationAttempts_fail_then_ok "[Translation failed]" oracle K 1 12 t
      hK (fun i h1 h2 => hfail i h1 (by omega)) (by rw [Nat.add_comm]; exact hok)
      hne
  · intro oracle text hb hfail
    unfold translate_paragraph
    rw [hb]
    simp only [Bool.false_eq_true, if_false]
    exact translationAttempts_all_fail "[Translation failed]" oracle 12 1
      (fun i h1 h2 => hfail i h1 (by omega))
  · intro oracle text t K hb hK hfail hok hne
    unfold translate_to_urdu
    rw [hb]
    simp only [Bool.false_eq_true, if_false]
    exact translationAttempts_fail_then_ok "[Urdu translation failed]" oracle K 1
      12 t hK (fun i h1 h2 => hfail i h1 (by omega))
      (by rw [Nat.add_comm]; exact hok) hne
  · intro oracle text hb hfail
    unfold translate_to_urdu
    rw [hb]
    simp only [Bool.false_eq_true, if_false]
    exact translationAttempts_all_fail "[Urdu translation failed]" oracle 12 1
      (fun i h1 h2 => hfail i h1 (by omega))

/-- Witness for C3: an oracle failing twice then succeeding (K = 2), and an
always-failing oracle, at concrete inputs. -/
theorem c3_retry_counts_witness :
    ocr_with_gemini (fun i => if i ≤ 2 then .raise "e" else .ok "out")
      = ("out", 3)
    ∧ ocr_with_gemini (fun _ => .raise "e") = ("", 12)
    ∧ translate_paragraph (fun i => if i ≤ 2 then .raise "e" else .ok " out ")
        "de" = ("out", 3)
    ∧ translate_paragraph (fun _ => .raise "e") "de"
        = ("[Translation failed]", 12)
    ∧ translate_to_urdu (fun i => if i ≤ 2 then .ok " " else .ok " out ")
        "en" = ("out", 3)
    ∧ translate_to_urdu (fun _ => .ok "  ") "en"
        = ("[Urdu translation failed]", 12) := by
  have h := c3_retry_counts
  refine ⟨?_, ?_, ?_, ?_, ?_, ?_⟩
  · have := h.1 (fun i => if i ≤ 2 then .raise "e" else .ok "out") 2 "out"
      (by omega) (fun i h1 h2 => by interval_cases i <;> decide) (by decide)
    exact this
  · exact h.2.1 (fun _ => .raise "e") (fun i h1 h2 => rfl)
  · have := h.2.2.1 (fun i => if i ≤ 2 then .raise "e" else .ok " out ")
      "de" " out " 2 (by decide) (by omega)
      (fun i h1 h2 => by show ((if i ≤ 2 then _ else _) : CallOutcome).isTransFail = true; rw [if_pos h2]; rfl) (by decide) (by decide)
    rw [this]
    decide
  · exact h.2.2.2.1 (fun _ => .raise "e") "de" (by decide) (fun i h1 h2 => rfl)
  · have := h.2.2.2.2.1 (fun i => if i ≤ 2 then .ok " " else .ok " out ")
      "en" " out " 2 (by decide) (by omega)
      (fun i h1 h2 => by show ((if i ≤ 2 then _ else _) : CallOutcome).isTransFail = true; rw [if_pos h2]; rfl) (by decide) (by decide)
    rw [this]
    decide
  · exact h.2.2.2.2.2 (fun _ => .ok "  ") "en" (by decide)
      (fun i h1 h2 => rfl)

/-! ## Pipeline lemmas -/

theorem processPagesAux_length {α : Type} (oracle : α → Nat → CallOutcome)
    (total : Nat) :
    ∀ (imgs : List α) (n : Nat) (acc : List OcrPage),
    (processPagesAux oracle total n imgs acc).length = imgs.length := by
  intro imgs
  induction imgs with
  | nil => intro n acc; rfl
  | cons img rest ih =>
    intro n acc
    simp only [processPagesAux, List.length_cons, ih]

theorem processPagesAux_get {α : Type} (oracle : α → Nat → CallOutcome)
    (total : Nat) :
    ∀ (imgs : List α) (i n : Nat) (acc : List OcrPage), i < imgs.length →
    (processPagesAux oracle total n imgs acc)[i]? =
      some ⟨total, acc ++ ((withIdx n imgs).take (i + 1)).map (ocrPageOf oracle)⟩ := by
  intro imgs
  induction imgs with
  | nil => intro i n acc h; simp at h
  | cons img rest ih =>
    intro i n acc h
    cases i with
    | zero =>
      simp only [processPagesAux, List.getElem?_cons_zero, Option.some.injEq,
        withIdx, List.take_succ_cons, List.take_zero, List.map_cons,
        List.map_nil, ocrPageOf]
    | succ i =>
      have hi : i < rest.length := by simpa using h
      simp only [processPagesAux, List.getElem?_cons_succ]
      have h2 := ih i (n + 1)
        (acc ++ [OcrPage.mk n (pyStripStr (ocr_with_gemini (oracle img)).1)]) hi
      rw [h2]
      simp only [Option.some.injEq, OcrDoc.mk.injEq, true_and, withIdx,
        List.take_succ_cons, List.map_cons, List.append_assoc,
        List.singleton_append, ocrPageOf]

theorem withIdx_take_map_fst {α : Type} :
    ∀ (l : List α) (k n : Nat), k ≤ l.length →
    (((withIdx n l).take k).map Prod.fst) = List.range' n k := by
  intro l
  induction l with
  | nil =>
    intro k n h
    have hk : k = 0 := by simpa using h
    subst hk
    rfl
  | cons x xs ih =>
    intro k n h
    cases k with
    | zero => rfl
    | succ k =>
      simp only [withIdx, List.take_succ_cons, List.map_cons, List.range'_succ]
      rw [ih k (n + 1) (by simpa using h)]

theorem urduPagesAux_length (oracle : String → Nat → CallOutcome) (total : Nat) :
    ∀ (ps : List EnPage) (acc : List UrPage),
    (urduPagesAux oracle total ps acc).length = ps.length := by
  intro ps
  induction ps with
  | nil => intro acc; rfl
  | cons p rest ih =>
    intro acc
    simp only [urduPagesAux, List.length_cons, ih]

theorem urduPagesAux_get (oracle : String → Nat → CallOutcome) (total : Nat) :
    ∀ (ps : List EnPage) (i : Nat) (acc : List UrPage), i < ps.length →
    (urduPagesAux oracle total ps acc)[i]? =
      some ⟨total, acc ++ (ps.take (i + 1)).map (urPageOf oracle)⟩ := by
  intro ps
  induction ps with
  | nil => intro i acc h; simp at h
  | cons p rest ih =>
    intro i acc h
    cases i with
    | zero =>
      simp only [urduPagesAux, List.getElem?_cons_zero, Option.some.injEq,
        List.take_succ_cons, List.take_zero, List.map_cons, List.map_nil,
        urPageOf]
    | succ i =>
      have hi : i < rest.length := by simpa using h
      simp only [urduPagesAux, List.getElem?_cons_succ]
      have h2 := ih i (acc ++ [UrPage.mk p.page_number p.german p.english
            (translate_to_urdu (oracle p.english) p.english).1]) hi
      rw [h2]
      simp only [Option.some.injEq, UrDoc.mk.injEq, true_and,
        List.take_succ_cons, List.map_cons, List.append_assoc,
        List.singleton_append, urPageOf]

theorem take_map_page_number :
    ∀ (ps : List EnPage) (k n : Nat), k ≤ ps.length →
    (∀ (j : Nat) (pg : EnPage), ps[j]? = some pg → pg.page_number = n + j) →
    ((ps.take k).map EnPage.page_number) = List.range' n k := by
  intro ps
  induction ps with
  | nil =>
    intro k n h _
    have hk : k = 0 := by simpa using h
    subst hk
    rfl
  | cons p rest ih =>
    intro k n h hnum
    cases k with
    | zero => rfl
    | succ k =>
      have hp : p.page_number = n := by
        have := hnum 0 p (by simp)
        omega
      simp only [List.take_succ_cons, List.map_cons, List.range'_succ, hp]
      rw [ih k (n + 1) (by simpa using h)]
      intro j pg hj
      have := hnum (j + 1) pg (by simpa using hj)
      omega

theorem translatePagesAux_length (oracle : String → Nat → CallOutcome) :
    ∀ ps : List OcrPage,
    (translatePagesAux oracle ps).1.length = ps.length
    ∧ (translatePagesAux oracle ps).2.length = ps.length := by
  intro ps
  induction ps with
  | nil => exact ⟨rfl, rfl⟩
  | cons p rest ih =>
    refine ⟨?_, ?_⟩
    · simpa [translatePagesAux] using ih.1
    · simpa [translatePagesAux] using ih.2

theorem translatePagesAux_get (oracle : String → Nat → CallOutcome) :
    ∀ (ps : List OcrPage) (i : Nat) (pg : OcrPage), ps[i]? = some pg →
    (translatePagesAux oracle ps).1[i]? = some (enPageOf oracle pg)
    ∧ (translatePagesAux oracle ps).2[i]? =
        some (translate_paragraph (oracle pg.content) pg.content).2 := by
  intro ps
  induction ps with
  | nil => intro i pg h; simp at h
  | cons p rest ih =>
    intro i pg h
    cases i with
    | zero =>
      simp only [List.getElem?_cons_zero, Option.some.injEq] at h
      subst h
      refine ⟨?_, ?_⟩
      · simp [translatePagesAux, enPageOf]
      · simp [translatePagesAux]
    | succ i =>
      simp only [List.getElem?_cons_zero, List.getElem?_cons_succ] at h
      have := ih i pg h
      simpa only [translatePagesAux, List.getElem?_cons_succ] using this

theorem translationAttempts_pos (sentinel : String)
    (oracle : Nat → CallOutcome) (a r : Nat) :
    1 ≤ (translationAttempts sentinel oracle a (r + 1)).2 := by
  cases ho : oracle a with
  | ok t =>
    by_cases hne : pyStripStr t ≠ ""
    · simp only [translationAttempts, ho]
      rw [if_pos hne]
    · simp only [translationAttempts, ho]
      rw [if_neg hne]
      omega
  | raise m =>
    simp only [translationAttempts, ho]
    omega

/-! ## Claim C5 -/

/-- C5: in the OCR stage and the Urdu (Gemini) translation stage, the
document flushed to disk after the k-th page holds `total_pages` equal to
the full page count and exactly the first k pages of the input, in order;
under the pipeline invariant that input pages are numbered 1..N in order,
the flushed page numbers are the ascending range 1..k. -/
theorem c5_flush_prefix_property :
    (∀ {α : Type} (oracle : α → Nat → CallOutcome) (images : List α) (i : Nat),
      i < images.length →
      (process_pdf_pages oracle images).length = images.length
      ∧ (process_pdf_pages oracle images)[i]? =
          some ⟨images.length,
            ((withIdx 1 images).take (i + 1)).map (ocrPageOf oracle)⟩
      ∧ ((((withIdx 1 images).take (i + 1)).map (ocrPageOf oracle)).map
            OcrPage.page_number) = List.range' 1 (i + 1))
    ∧ (∀ (oracle : String → Nat → CallOutcome) (doc : EnDoc) (i : Nat),
      i < doc.pages.length →
      (translate_json_file_urdu oracle doc).length = doc.pages.length
      ∧ (translate_json_file_urdu oracle doc)[i]? =
          some ⟨doc.total_pages, (doc.pages.take (i + 1)).map (urPageOf oracle)⟩
      ∧ ((∀ (j : Nat) (pg : EnPage), doc.pages[j]? = some pg →
            pg.page_number = j + 1) →
          (((doc.pages.take (i + 1)).map (urPageOf oracle)).map
              UrPage.page_number) = List.range' 1 (i + 1))) := by
  constructor
  · intro α oracle images i hi
    refine ⟨processPagesAux_length oracle images.length images 1 [], ?_, ?_⟩
    · have h := processPagesAux_get oracle images.length images i 1 [] hi
      simpa [process_pdf_pages] using h
    · rw [List.map_map]
      have hcong : (((withIdx 1 images).take (i + 1)).map
          (OcrPage.page_number ∘ ocrPageOf oracle)) =
          (((withIdx 1 images).take (i + 1)).map Prod.fst) :=
        List.map_congr_left (fun z _ => rfl)
      rw [hcong]
      exact withIdx_take_map_fst images (i + 1) 1 (by omega)
  · intro oracle doc i hi
    refine ⟨urduPagesAux_length oracle doc.total_pages doc.pages [], ?_, ?_⟩
    · have h := urduPagesAux_get oracle doc.total_pages doc.pages i [] hi
      simpa [translate_json_file_urdu] using h
    · intro hnum
      rw [List.map_map]
      have hcong : (((doc.pages.take (i + 1)).map
          (UrPage.page_number ∘ urPageOf oracle))) =
          ((doc.pages.take (i + 1)).map EnPage.page_number) :=
        List.map_congr_left (fun p _ => rfl)
      rw [hcong]
      exact take_map_page_number doc.pages (i + 1) 1 (by omega)
        (fun j pg hj => by have := hnum j pg hj; omega)

/-- Witness for C5: two-page inputs for both stages, flush after page 2. -/
theorem c5_flush_prefix_property_witness :
    (process_pdf_pages (fun (_ : Nat) (_ : Nat) => CallOutcome.ok " T ")
        [7, 8])[1]? = some ⟨2, [⟨1, "T"⟩, ⟨2, "T"⟩]⟩
    ∧ (translate_json_file_urdu (fun _ _ => CallOutcome.ok " U ")
        ⟨2, [⟨1, "g1", "e1"⟩, ⟨2, "g2", "e2"⟩]⟩)[1]?
      = some ⟨2, [⟨1, "g1", "e1", "U"⟩, ⟨2, "g2", "e2", "U"⟩]⟩ := by
  have h1 := (c5_flush_prefix_property.1 (fun (_ : Nat) (_ : Nat) => CallOutcome.ok " T ")
    [7, 8] 1 (by decide)).2.1
  have h2 := (c5_flush_prefix_property.2 (fun _ _ => CallOutcome.ok " U ")
    ⟨2, [⟨1, "g1", "e1"⟩, ⟨2, "g2", "e2"⟩]⟩ 1 (by decide)).2.1
  rw [h1, h2]
  refine ⟨by decide, by decide⟩

/-! ## Claim C1 -/

/-- C1 counterexample: `translate_json_file` (English stage) never reads the
output file -- it rebuilds the whole output from the input document, so a
second run on a document whose first run was interrupted after page 2 of 5
behaves exactly like the first run.  With every model call succeeding, the
per-page external-call counts of the rerun are [1, 1, 1, 1, 1]: page 1
(already completed by the interrupted first run) incurs 1 external call,
not the 0 calls the claim requires for completed pages. -/
theorem c1_counterexample :
    (translate_json_file_en (fun _ _ => CallOutcome.ok "t")
        ⟨5, [⟨1, "g1"⟩, ⟨2, "g2"⟩, ⟨3, "g3"⟩, ⟨4, "g4"⟩, ⟨5, "g5"⟩]⟩).2
      = [1, 1, 1, 1, 1]
    ∧ ([1, 1, 1, 1, 1] : List Nat)[0]? ≠ some 0 := by
  refine ⟨by decide, by decide⟩

/-- C1 amended: the page-level stages have no page-level resumption -- the
output file is never consulted, so a rerun performs external model calls
for every page with non-blank content again (at least one call per such
page, on every run). -/
theorem c1_rerun_calls_every_page (oracle : String → Nat → CallOutcome)
    (doc : OcrDoc) :
    (translate_json_file_en oracle doc).2.length = doc.pages.length
    ∧ (∀ (i : Nat) (pg : OcrPage), doc.pages[i]? = some pg →
        isBlank pg.content = false →
        (translate_json_file_en oracle doc).2[i]? =
          some (translate_paragraph (oracle pg.content) pg.content).2
        ∧ 1 ≤ (translate_paragraph (oracle pg.content) pg.content).2) := by
  refine ⟨(translatePagesAux_length oracle doc.pages).2, ?_⟩
  intro i pg hget hblank
  refine ⟨(translatePagesAux_get oracle doc.pages i pg hget).2, ?_⟩
  rw [translate_paragraph, hblank]
  simp only [Bool.false_eq_true, if_false]
  exact translationAttempts_pos "[Translation failed]" (oracle pg.content) 1 11

/-- Witness for C1's amended theorem on a one-page document. -/
theorem c1_rerun_calls_every_page_witness :
    (translate_json_file_en (fun _ _ => CallOutcome.ok "t")
        ⟨1, [⟨1, "g"⟩]⟩).2.length = 1
    ∧ 1 ≤ (translate_paragraph ((fun (_ : String) (_ : Nat) =>
        CallOutcome.ok "t") "g") "g").2 := by
  have h := c1_rerun_calls_every_page (fun _ _ => CallOutcome.ok "t")
    ⟨1, [⟨1, "g"⟩]⟩
  exact ⟨h.1, (h.2 0 ⟨1, "g"⟩ (by decide) (by decide)).2⟩

/-! ## Claim C6 -/

/-- C6: the two terminal-failure policies are asymmetric and both hold.  In
the local-model pipeline a `None` from `translate_segment` exits the
process: the segments after it are never examined (the run over
`l1 ++ none :: post` equals the run over `l1 ++ [none]` for every `post`),
the exit flag is set, and the remaining files are never examined.  In the
Gemini translation stage an exhausted retry stores the sentinel
`[Translation failed]` as the page value and processing continues: the
output always has one page per input page. -/
theorem c6_failure_policies :
    (∀ (l1 post : List (Option String)),
      runSegments (l1 ++ none :: post) = runSegments (l1 ++ [none]))
    ∧ (∀ l1 : List (Option String), (runSegments (l1 ++ [none])).2 = true)
    ∧ (∀ (f : EvalFile) (fs : List EvalFile), f.existsAlready = false →
        (runSegments f.segResults).2 = true →
        runBatch (f :: fs) = runBatch [f])
    ∧ (∀ (oracle : String → Nat → CallOutcome) (doc : OcrDoc),
        (translate_json_file_en oracle doc).1.pages.length = doc.pages.length)
    ∧ (∀ (oracle : String → Nat → CallOutcome) (doc : OcrDoc) (i : Nat)
        (pg : OcrPage), doc.pages[i]? = some pg →
        isBlank pg.content = false →
        (∀ a, 1 ≤ a → a ≤ 12 → (oracle pg.content a).isTransFail = true) →
        (translate_json_file_en oracle doc).1.pages[i]? =
          some ⟨pg.page_number, pg.content, "[Translation failed]"⟩) := by
  refine ⟨?_, ?_, ?_, ?_, ?_⟩
  · intro l1
    induction l1 with
    | nil => intro post; rfl
    | cons r l1 ih =>
      intro post
      cases r with
      | none => rfl
      | some t =>
        simp only [List.cons_append, runSegments, List.append_eq, ih post]
  · intro l1
    induction l1 with
    | nil => rfl
    | cons r l1 ih =>
      cases r with
      | none => rfl
      | some t =>
        simp only [List.cons_append, runSegments]
        by_cases ht : t = ""
        · rw [if_pos ht]
          exact ih
        · rw [if_neg ht]
          exact ih
  · intro f fs hex hstop
    cases hseg : f.segResults with
    | nil => rw [hseg] at hstop; simp [runSegments] at hstop
    | cons r rest =>
      rw [hseg] at hstop
      simp only [runBatch, hex, Bool.false_eq_true, if_false, hseg,
        List.isEmpty_cons, hstop, if_true]
  · intro oracle doc
    exact (translatePagesAux_length oracle doc.pages).1
  · intro oracle doc i pg hget hblank hfail
    show (translatePagesAux oracle doc.pages).1[i]? = _
    rw [(translatePagesAux_get oracle doc.pages i pg hget).1]
    have hsent : translate_paragraph (oracle pg.content) pg.content
        = ("[Translation failed]", 12) := by
      rw [translate_paragraph, hblank]
      simp only [Bool.false_eq_true, if_false]
      exact translationAttempts_all_fail "[Translation failed]"
        (oracle pg.content) 12 1 (fun a h1 h2 => hfail a h1 (by omega))
    simp only [enPageOf, hsent]
  
/-- Witness for C6 at concrete inputs: a two-segment file whose second
segment fails hard, a following file that is never reached, and a one-page
document whose translation always raises. -/
theorem c6_failure_policies_witness :
    runSegments ([some "a"] ++ none :: [some "b"])
      = runSegments ([some "a"] ++ [none])
    ∧ (runSegments ([some "a"] ++ [none])).2 = true
    ∧ runBatch (⟨false, [some "a", none]⟩ :: [⟨false, [some "b"]⟩])
      = runBatch [⟨false, [some "a", none]⟩]
    ∧ (translate_json_file_en (fun _ _ => CallOutcome.raise "e")
        ⟨1, [⟨1, "g"⟩]⟩).1.pages.length = 1
    ∧ (translate_json_file_en (fun _ _ => CallOutcome.raise "e")
        ⟨1, [⟨1, "g"⟩]⟩).1.pages[0]?
      = some ⟨1, "g", "[Translation failed]"⟩ := by
  have h := c6_failure_policies
  refine ⟨h.1 [some "a"] [some "b"], h.2.1 [some "a"], ?_, ?_, ?_⟩
  · exact h.2.2.1 ⟨false, [some "a", none]⟩ [⟨false, [some "b"]⟩] rfl (by decide)
  · exact h.2.2.2.1 (fun _ _ => .raise "e") ⟨1, [⟨1, "g"⟩]⟩
  · exact h.2.2.2.2 (fun _ _ => .raise "e") ⟨1, [⟨1, "g"⟩]⟩ 0 ⟨1, "g"⟩
      (by decide) (by decide) (fun a h1 h2 => rfl)

/-! ## Claim C7 -/

/-- C7: `extract_text_from_json` normalises the four known shapes exactly
as specified: nested document/pages, direct content list, keyed pages in
sorted key order with reserved keys excluded, and a plain list with
stringified elements. -/
theorem c7_extract_shapes :
    extract_text_from_json (.jobj [("document", .jobj [("pages",
        .jarr [.jobj [("content", .jstr "a")], .jobj [("content", .jstr "b")]])])])
      = ["a", "b"]
    ∧ extract_text_from_json (.jobj [("content", .jarr [.jstr "x", .jstr "y"])])
      = ["x", "y"]
    ∧ extract_text_from_json
        (.jobj [("p1", .jstr "a"), ("p2", .jstr "b"), ("total_pages", .jint 2)])
      = ["a", "b"]
    ∧ extract_text_from_json (.jarr [.jint 1, .jint 2]) = ["1", "2"] := by
  refine ⟨by decide, by decide, by decide, by decide⟩

/-! ## Sanitiser lemmas -/

theorem subScanF_no_match (p : RPat) :
    ∀ (cs : List Char) (fuel : Nat) (atLS : Bool),
    hasMatch.go p atLS cs = false →
    subScanF p.anchored p.toks fuel cs atLS = cs := by
  intro cs
  induction cs with
  | nil => intro fuel atLS _; cases fuel <;> rfl
  | cons c cs2 ih =>
    intro fuel atLS hgo
    simp only [hasMatch.go, Bool.or_eq_false_iff, Bool.and_eq_false_iff] at hgo
    have hgo2 := hgo.2
    cases fuel with
    | zero => rfl
    | succ f =>
      by_cases ha : (p.anchored && !atLS) = true
      · simp only [subScanF]
        rw [if_pos ha, ih f (decide (c = '\n')) hgo2]
      · have hm : (matchToks p.toks (c :: cs2)).isSome = false := by
          rcases hgo.1 with h | h
          · exfalso
            apply ha
            simpa using h
          · exact h
        have hmn : matchToks p.toks (c :: cs2) = none := by
          cases hmm : matchToks p.toks (c :: cs2) with
          | none => rfl
          | some r => rw [hmm] at hm; simp at hm
        simp only [subScanF]
        rw [if_neg ha, hmn]
        show c :: subScanF p.anchored p.toks f cs2 (decide (c = '\n')) = c :: cs2
        rw [ih f (decide (c = '\n')) hgo2]

theorem subPattern_no_match (p : RPat) (cs : List Char)
    (h : hasMatch p cs = false) : subPattern p cs = cs :=
  subScanF_no_match p cs (cs.length + 1) true h

theorem patternFree_noMatch (cs : List Char) (hp : patternFree cs = true) :
    ∀ p ∈ allPatterns, hasMatch p cs = false := by
  intro p hmem
  have := (List.all_eq_true.mp hp) p hmem
  simpa using this

theorem foldl_subStripStep_no_op :
    ∀ (pats : List RPat) (cs : List Char),
    (∀ p ∈ pats, hasMatch p cs = false) → pyStripList cs = cs →
    pats.foldl subStripStep cs = cs := by
  intro pats
  induction pats with
  | nil => intro cs _ _; rfl
  | cons p ps ih =>
    intro cs hno hstrip
    have hstep : subStripStep cs p = cs := by
      unfold subStripStep
      rw [subPattern_no_match p cs (hno p (by simp)), hstrip]
    rw [List.foldl_cons, hstep]
    exact ih cs (fun q hq => hno q (by simp [hq])) hstrip

theorem foldl_subStripStep_to_strip :
    ∀ (pats : List RPat) (cs : List Char), pats ≠ [] →
    (∀ p ∈ pats, hasMatch p cs = false) →
    (∀ p ∈ pats, hasMatch p (pyStripList cs) = false) →
    pats.foldl subStripStep cs = pyStripList cs := by
  intro pats cs hne hno hno2
  cases pats with
  | nil => exact absurd rfl hne
  | cons p ps =>
    have hstep : subStripStep cs p = pyStripList cs := by
      unfold subStripStep
      rw [subPattern_no_match p cs (hno p (by simp))]
    rw [List.foldl_cons, hstep]
    exact foldl_subStripStep_no_op ps (pyStripList cs)
      (fun q hq => hno2 q (by simp [hq])) (pyStripList_idem cs)

theorem foldl_subStripStep_stripped :
    ∀ (pats : List RPat) (cs : List Char), pats ≠ [] →
    pyStripList (pats.foldl subStripStep cs) = pats.foldl subStripStep cs := by
  intro pats
  induction pats with
  | nil => intro cs h; exact absurd rfl h
  | cons p ps ih =>
    intro cs _
    cases hps : ps with
    | nil =>
      simp only [List.foldl_cons, List.foldl_nil, subStripStep]
      exact pyStripList_idem (subPattern p cs)
    | cons q qs =>
      rw [List.foldl_cons]
      rw [← hps]
      exact ih (subStripStep cs p) (by rw [hps]; exact List.cons_ne_nil q qs)

theorem cleanList_of_patternFree (cs : List Char)
    (h1 : patternFree cs = true) (h2 : patternFree (pyStripList cs) = true) :
    cleanList cs = pyStripList cs := by
  by_cases hnil : cs = []
  · subst hnil
    rfl
  · have hno1 := patternFree_noMatch cs h1
    have hno2 := patternFree_noMatch (pyStripList cs) h2
    unfold cleanList
    rw [if_neg hnil]
    have hlead : leadPatterns.foldl subStripStep cs = pyStripList cs :=
      foldl_subStripStep_to_strip leadPatterns cs (by simp [leadPatterns])
        (fun p hp => hno1 p (by
          simp only [allPatterns, List.mem_append]
          exact Or.inl hp))
        (fun p hp => hno2 p (by
          simp only [allPatterns, List.mem_append]
          exact Or.inl hp))
    rw [hlead]
    exact foldl_subStripStep_no_op tailPatterns (pyStripList cs)
      (fun q hq => hno2 q (by
        simp only [allPatterns, List.mem_append]
        exact Or.inr hq))
      (pyStripList_idem cs)

theorem cleanList_stripped (cs : List Char) :
    pyStripList (cleanList cs) = cleanList cs := by
  by_cases hnil : cs = []
  · subst hnil
    rfl
  · unfold cleanList
    rw [if_neg hnil]
    exact foldl_subStripStep_stripped tailPatterns _ (by simp [tailPatterns])

/-! ## Claim C8 -/

/-- C8 counterexample: the string `" hello "` contains none of the
configured patterns, yet `clean_response` does not return it unchanged --
every substitution round ends in `.strip()`, so surrounding whitespace is
removed. -/
theorem c8_counterexample :
    patternFree " hello ".toList = true
    ∧ clean_response " hello " ≠ " hello " := by
  refine ⟨by decide, by decide⟩

/-- C8 amended: on input containing none of the configured patterns
(neither the text nor its stripped form has a match), `clean_response`
returns the input stripped of surrounding whitespace: `clean(x) = x.strip()`,
not `x` itself. -/
theorem c8_amended (s : String) (h1 : patternFree s.toList = true)
    (h2 : patternFree (pyStripList s.toList) = true) :
    clean_response s = pyStripStr s := by
  unfold clean_response pyStripStr
  rw [cleanList_of_patternFree s.toList h1 h2]

/-- Witness for C8's amended theorem at `" hello "`. -/
theorem c8_amended_witness :
    clean_response " hello " = pyStripStr " hello "
    ∧ pyStripStr " hello " = "hello" := by
  refine ⟨c8_amended " hello " (by decide) (by decide), by decide⟩

/-! ## Claim C9 -/

/-- C9 counterexample: `clean_response` is not idempotent.  Deleting the
line-anchored occurrence of `Translation:` in
`"Translation:Translation: hello"` re-creates an occurrence at the start of
the line, which the same pass does not revisit (scanning resumes after the
removed match) but a second application removes. -/
theorem c9_counterexample :
    clean_response (clean_response "Translation:Translation: hello")
      ≠ clean_response "Translation:Translation: hello" := by
  decide

/-- C9 amended: `clean_response` is idempotent on every input whose cleaned
form contains none of the patterns (in particular on all inputs where no
substitution re-creates a pattern occurrence); it is not idempotent in
general. -/
theorem c9_amended (s : String)
    (h : patternFree (cleanList s.toList) = true) :
    clean_response (clean_response s) = clean_response s := by
  have ht : pyStripList (cleanList s.toList) = cleanList s.toList :=
    cleanList_stripped s.toList
  show (⟨cleanList (String.toList ⟨cleanList s.toList⟩)⟩ : String)
      = (⟨cleanList s.toList⟩ : String)
  have hlist : String.toList ⟨cleanList s.toList⟩ = cleanList s.toList := rfl
  rw [hlist, cleanList_of_patternFree (cleanList s.toList) h (by rw [ht]; exact h),
    ht]

/-- Witness for C9's amended theorem at `"Translation: hello"` (cleaned form
`"hello"`, pattern-free). -/
theorem c9_amended_witness :
    clean_response (clean_response "Translation: hello")
      = clean_response "Translation: hello" :=
  c9_amended "Translation: hello" (by decide)

end OcrMT
